import Mathlib

/-!
Verification of the bean-order-server webhook relay (src/order_server.py).

The file shallowly embeds the handlers and helpers of the Flask server and
proves the behavioural claims of the specification against them.

Conventions of the embedding:

* The clock is integer microseconds (type `Int`).  Both `datetime.now()` and
  `time.time()` read this clock; `time.time()` is the reading in seconds and
  Python `int(...)` truncates toward zero (`pyInt`).  The ISO rendering of a
  timestamp placed into response bodies is abstracted to the decimal
  rendering of the clock value.
* Parsed JSON bodies are the inductive `Json`; a request body is
  `Option Json`, where `none` stands for a request whose `request.get_json()`
  produced no data.  Python truthiness of a parsed value is `Json.truthy`.
* Every call a handler makes to `send_status_to_app` is recorded, in call
  order, as a `StatusEvent` holding the call's arguments; the publisher
  itself (`send_status_to_app`) is modelled separately and returns its
  boolean result together with the remote write it attempts (`none` when it
  degrades to a no-op without network traffic).  The handlers discard the
  boolean result everywhere except in `update_order_status`.
* The body of one iteration of the brewing loop apart from the status
  publish - the log line reading the item's name, the simulated two-second
  delay, and the GPIO placeholder - is the `BrewAct` parameter of the
  pipeline; a `.error msg` result stands for an exception raised during that
  body with text `msg`.  In the source that body never raises, which is the
  constant `pureBrew`.
* The rate limiter is embedded at the granularity of one client's record in
  the `request_counts` map, which is what every claim speaks about; distinct
  clients' records never interact in the source.
-/

/-- One minute, in microseconds: the `timedelta(minutes=1)` window. -/
def minuteDelta : Int := 60000000

/-- Python `int(..)` applied to a clock reading expressed in seconds: the
microsecond reading divided by ten to the sixth, truncating toward zero
exactly as Python `int` does on a float. -/
def pyInt (t : Int) : Int := t.tdiv 1000000

/-- Parsed JSON values as `request.get_json()` produces them.  Objects are
association lists with distinct keys (Python dicts). -/
inductive Json where
  | null
  | bool (b : Bool)
  | num (q : ℚ)
  | str (s : String)
  | arr (items : List Json)
  | obj (fields : List (String × Json))

/-- Python truthiness of a parsed JSON value: `None`, `False`, zero, the
empty string, the empty list and the empty dict are falsy. -/
def Json.truthy : Json → Bool
  | .null => false
  | .bool b => b
  | .num q => decide (q ≠ 0)
  | .str s => decide (s ≠ "")
  | .arr items => !items.isEmpty
  | .obj fields => !fields.isEmpty

/-- Python `data.get(key, default)` on a parsed JSON object. -/
def jGet (fields : List (String × Json)) (key : String) (dflt : Json) : Json :=
  match fields.lookup key with
  | some v => v
  | none => dflt

/-- Python `str(..)` of the payload values the handlers interpolate into
messages.  Composite values are rendered opaquely: no claim inspects the
rendering of a composite value. -/
def pyStr : Json → String
  | .null => "None"
  | .bool b => if b then "True" else "False"
  | .num q => toString q
  | .str s => s
  | .arr _ => "<list>"
  | .obj _ => "<dict>"

/-- The `orders` payload value as the item sequence the brew loop iterates.
The upstream caller sends a JSON array (specification, section 3); a
non-array shape is exercised by no claim and is mapped to the empty
sequence. -/
def jItems : Json → List Json
  | .arr items => items
  | _ => []

/-- Python `s.split(' ')` on the character list of a string: chunks between
single-space separators, keeping empty chunks. -/
def pySplitSpace : List Char → List (List Char)
  | [] => [[]]
  | c :: cs =>
    if c = ' ' then [] :: pySplitSpace cs
    else
      match pySplitSpace cs with
      | [] => [[c]]
      | w :: ws => (c :: w) :: ws

/-- Outcome of the API-key check every endpoint performs inline
(order_server.py lines 142-150 and its copies). -/
inductive AuthResult where
  | missingHeader
  | invalidKey
  | ok
deriving DecidableEq

/-- Characters of the required scheme marker, with its trailing space. -/
def bearerMarker : List Char := "Bearer ".data

/-- The inline authorization check: an absent header (which subsumes the
falsy empty header) or one that does not start with `Bearer ` is rejected as
missing or invalid; otherwise the second space-separated chunk,
`auth_header.split(' ')[1]` - which exists whenever the marker is a prefix,
see `pySplitSpace_two_chunks` - is compared with the configured key. -/
def checkAuth (apiKey : String) (header : Option String) : AuthResult :=
  match header with
  | none => .missingHeader
  | some h =>
    if bearerMarker.isPrefixOf h.data then
      if (pySplitSpace h.data).getD 1 [] = apiKey.data then .ok else .invalidKey
    else .missingHeader

/-- The configured admission threshold. -/
def MAX_REQUESTS_PER_MINUTE : Nat := 10

/-- Embedding of `is_rate_limited` (lines 62-77), at the granularity of one
client's record in `request_counts`: prune the entries at least one minute
old, reject without recording when the pruned record has reached the
threshold, otherwise record `now` and admit.  The boolean is `true` when the
request is rejected; the second component is the record as the map stores it
afterwards. -/
def is_rate_limited (times : List Int) (now : Int) : Bool × List Int :=
  let minute_ago := now - minuteDelta
  let recent := times.filter (fun t => decide (minute_ago < t))
  if MAX_REQUESTS_PER_MINUTE ≤ recent.length then (true, recent)
  else (false, recent ++ [now])

/-- Successive admission checks for one client: the rejection flags in order,
with the final record. -/
def rlRun (times : List Int) : List Int → List Bool × List Int
  | [] => ([], times)
  | t :: ts =>
    let step := is_rate_limited times t
    let rest := rlRun step.2 ts
    (step.1 :: rest.1, rest.2)

/-- Embedding of `verify_firebase_ip` (lines 79-93): the source only logs the
caller's address and always allows. -/
def verify_firebase_ip : Bool := true

/-- Runtime condition of the optional Firebase integration:
`firebase_available` is the module flag FIREBASE_AVAILABLE, `firebase_app`
whether `initialize_app` produced an app, and `write_ok` whether a remote
write (`ref.set`) would succeed rather than raise. -/
structure FirebaseCfg where
  firebase_available : Bool
  firebase_app : Bool
  write_ok : Bool
deriving DecidableEq

/-- One call to `send_status_to_app`: the arguments the caller passes. -/
structure StatusEvent where
  user_id : Json
  order_id : Json
  status : Json
  message : Json

/-- Embedding of `send_status_to_app` (lines 95-120): degrade to a no-op
returning `false` when the Firebase SDK is unavailable or uninitialized;
otherwise attempt one remote write, catching any failure into a `false`
result.  The second component is the attempted write, `none` when no network
traffic happens at all. -/
def send_status_to_app (cfg : FirebaseCfg) (user_id order_id status message : Json) :
    Bool × Option StatusEvent :=
  if !cfg.firebase_available || !cfg.firebase_app then (false, none)
  else if cfg.write_ok then (true, some ⟨user_id, order_id, status, message⟩)
  else (false, some ⟨user_id, order_id, status, message⟩)

/-- The per-item loop body apart from the status publish: item index and item
in, an `.error` carrying `str(e)` when that body raises. -/
abbrev BrewAct := Nat → Json → Except String Unit

/-- The loop body as the source has it: logging and sleeping never raise. -/
def pureBrew : BrewAct := fun _ _ => .ok ()

/-- The per-item loop of `trigger_coffee_machine` (lines 340-355): for each
item run the loop body, then publish a progress event; stop at the first
exception and return its message. -/
def brew_loop (act : BrewAct) (user_id order_id : Json) (total : Nat) :
    List Json → Nat → List StatusEvent × Option String
  | [], _ => ([], none)
  | item :: rest, i =>
    match act i item with
    | .error e => ([], some e)
    | .ok _ =>
      let ev : StatusEvent := ⟨user_id, order_id, .str "brewing",
        .str ("Making drink " ++ Nat.repr (i + 1) ++ " of " ++ Nat.repr total)⟩
      let tail := brew_loop act user_id order_id total rest (i + 1)
      (ev :: tail.1, tail.2)

/-- Embedding of `trigger_coffee_machine` (lines 329-365): publish a starting
"brewing" event, run the per-item loop, then publish "ready"; an exception
anywhere in the loop is caught and turned into one terminal "error" event
carrying `Error: ` followed by the exception text, after which the function
returns. -/
def trigger_coffee_machine (act : BrewAct) (orders : List Json) (user_id order_id : Json) :
    List StatusEvent :=
  let started : StatusEvent := ⟨user_id, order_id, .str "brewing", .str "Coffee machine started"⟩
  match brew_loop act user_id order_id orders.length orders 0 with
  | (evs, none) =>
    started :: evs ++
      [⟨user_id, order_id, .str "ready", .str "Order completed and ready for pickup"⟩]
  | (evs, some e) =>
    started :: evs ++ [⟨user_id, order_id, .str "error", .str ("Error: " ++ e)⟩]

/-- An HTTP response: `jsonify({'error': msg}), code` or a 200 success body
whose fields are kept in source order. -/
inductive Resp where
  | err (code : Nat) (msg : String)
  | ok (fields : List (String × Json))

/-- Field lookup on a success body. -/
def Resp.field : Resp → String → Option Json
  | .ok fields, key => fields.lookup key
  | .err _ _, _ => none

/-- The HTTP status code (Flask defaults to 200 when none is given). -/
def Resp.code : Resp → Nat
  | .err c _ => c
  | .ok _ => 200

/-- What one request to a rate-limited endpoint produces: the response, the
`send_status_to_app` calls made in order, and the caller's rate-limit record
afterwards. -/
structure HandlerOut where
  resp : Resp
  events : List StatusEvent
  window : List Int

/-- Embedding of the `/order-notification` handler (lines 133-194): rate
limit, then the inline API-key check, then the unreachable source-address
check, then parse.  A body that is absent or falsy - including the empty
object - is answered 400; a truthy non-object body makes `data.get` raise
inside the catch-all and is answered 500; otherwise the order fields are
extracted with their defaults, a "preparing" event is published, the brew
pipeline runs, and the success body echoes `orderCount` and `totalValue` as
received. -/
def order_notification (apiKey : String) (act : BrewAct) (times : List Int) (now : Int)
    (auth : Option String) (body : Option Json) : HandlerOut :=
  match is_rate_limited times now with
  | (true, w) => ⟨.err 429 "Rate limit exceeded", [], w⟩
  | (false, w) =>
    match checkAuth apiKey auth with
    | .missingHeader => ⟨.err 401 "Missing or invalid authorization header", [], w⟩
    | .invalidKey => ⟨.err 401 "Invalid API key", [], w⟩
    | .ok =>
      if !verify_firebase_ip then ⟨.err 403 "Unauthorized source", [], w⟩
      else
        match body with
        | none => ⟨.err 400 "No JSON data provided", [], w⟩
        | some data =>
          if !data.truthy then ⟨.err 400 "No JSON data provided", [], w⟩
          else
            match data with
            | .obj fields =>
              let user_id := jGet fields "userId" (.str "unknown")
              let order_id := jGet fields "orderId" (.str ("order_" ++ Int.repr (pyInt now)))
              let orders := jItems (jGet fields "orders" (.arr []))
              let order_count := jGet fields "orderCount" (.num 0)
              let total_value := jGet fields "totalValue" (.num 0)
              let events :=
                ⟨user_id, order_id, .str "preparing",
                  .str "Order received, starting preparation"⟩
                  :: trigger_coffee_machine act orders user_id order_id
              ⟨.ok [("message", .str "Order notification received and processed"),
                    ("status", .str "success"),
                    ("timestamp", .str (Int.repr now)),
                    ("order_count", order_count),
                    ("total_value", total_value),
                    ("order_id", order_id)],
               events, w⟩
            | _ => ⟨.err 500 "Internal server error", [], w⟩

/-- Embedding of the `/submit-number` handler (lines 196-253): the same gate,
then one "completed" event and a success body echoing the submission. -/
def submit_number (apiKey : String) (times : List Int) (now : Int)
    (auth : Option String) (body : Option Json) : HandlerOut :=
  match is_rate_limited times now with
  | (true, w) => ⟨.err 429 "Rate limit exceeded", [], w⟩
  | (false, w) =>
    match checkAuth apiKey auth with
    | .missingHeader => ⟨.err 401 "Missing or invalid authorization header", [], w⟩
    | .invalidKey => ⟨.err 401 "Invalid API key", [], w⟩
    | .ok =>
      match body with
      | none => ⟨.err 400 "No JSON data provided", [], w⟩
      | some data =>
        if !data.truthy then ⟨.err 400 "No JSON data provided", [], w⟩
        else
          match data with
          | .obj fields =>
            let user_id := jGet fields "userId" (.str "unknown")
            let order_id := jGet fields "orderId" (.str "unknown")
            let number := jGet fields "number" (.str "unknown")
            ⟨.ok [("message", .str "Order number received and displayed"),
                  ("status", .str "success"),
                  ("timestamp", .str (Int.repr now)),
                  ("order_id", order_id),
                  ("number", number),
                  ("user_id", user_id)],
             [⟨user_id, order_id, .str "completed",
                .str ("Order completed! Number " ++ pyStr number ++ " displayed.")⟩], w⟩
          | _ => ⟨.err 500 "Internal server error", [], w⟩

/-- Embedding of the `/test` handler (lines 255-297): the same gate, no falsy
check on the body, an optional test event when Firebase is available and the
truthy body carries a `userId`, and a success body echoing the data.  The
`userId in data` membership test is modelled for object bodies, the only
shape any claim exercises. -/
def test_endpoint (apiKey : String) (cfg : FirebaseCfg) (times : List Int) (now : Int)
    (auth : Option String) (body : Option Json) : HandlerOut :=
  match is_rate_limited times now with
  | (true, w) => ⟨.err 429 "Rate limit exceeded", [], w⟩
  | (false, w) =>
    match checkAuth apiKey auth with
    | .missingHeader => ⟨.err 401 "Missing or invalid authorization header", [], w⟩
    | .invalidKey => ⟨.err 401 "Invalid API key", [], w⟩
    | .ok =>
      if !verify_firebase_ip then ⟨.err 403 "Unauthorized source", [], w⟩
      else
        let data := body.getD .null
        let events :=
          match cfg.firebase_available, data with
          | true, .obj fields =>
            match fields.lookup "userId" with
            | some u => [⟨u, .str "test_order", .str "test",
                .str "Test message from Railway server"⟩]
            | none => []
          | _, _ => []
        ⟨.ok [("message", .str "Raspberry Pi is online and responding"),
              ("status", .str "success"),
              ("timestamp", .str (Int.repr now)),
              ("received_data", data),
              ("firebase_available", .bool cfg.firebase_available)],
         events, w⟩

/-- Embedding of the `/status/userId/orderId` handler (lines 299-327): the
inline API-key check but no rate limiting, then `data.get` on the body
inside the catch-all - so a body that is absent or not an object raises
AttributeError and is answered with the generic 500, never 400 - and a
success body whose `success` flag is the publisher's boolean result. -/
def update_order_status (apiKey : String) (cfg : FirebaseCfg) (now : Int)
    (user_id order_id : String) (auth : Option String) (body : Option Json) :
    Resp × List StatusEvent :=
  match checkAuth apiKey auth with
  | .missingHeader => (.err 401 "Missing or invalid authorization header", [])
  | .invalidKey => (.err 401 "Invalid API key", [])
  | .ok =>
    match body with
    | some (.obj fields) =>
      let status := jGet fields "status" (.str "unknown")
      let message := jGet fields "message" (.str "Status updated")
      let success := (send_status_to_app cfg (.str user_id) (.str order_id) status message).1
      (.ok [("success", .bool success),
            ("message", .str ("Status updated to: " ++ pyStr status)),
            ("timestamp", .str (Int.repr now))],
       [⟨.str user_id, .str order_id, status, message⟩])
    | _ => (.err 500 "Internal server error", [])

/-! Decimal rendering: facts about `Nat.repr`, needed because the server
synthesizes order identifiers from the clock. -/

/-- Decimal value of a digit character. -/
def digitVal (c : Char) : Nat := c.toNat - '0'.toNat

/-- Decode a most-significant-digit-first character list. -/
def decodeDigits (l : List Char) : Nat := l.foldl (fun a c => 10 * a + digitVal c) 0

theorem digitVal_digitChar : ∀ d, d < 10 → digitVal (Nat.digitChar d) = d := by decide

theorem toDigitsCore_append (fuel : Nat) :
    ∀ (n : Nat) (acc : List Char),
      Nat.toDigitsCore 10 fuel n acc = Nat.toDigitsCore 10 fuel n [] ++ acc := by
  induction fuel with
  | zero => intro n acc; simp [Nat.toDigitsCore]
  | succ fuel ih =>
    intro n acc
    simp only [Nat.toDigitsCore]
    by_cases h : n / 10 = 0
    · simp [h]
    · rw [if_neg h, if_neg h, ih (n / 10) (_ :: acc), ih (n / 10) (_ :: [])]
      simp

theorem decodeDigits_append_singleton (l : List Char) (c : Char) :
    decodeDigits (l ++ [c]) = 10 * decodeDigits l + digitVal c := by
  simp [decodeDigits, List.foldl_append]

theorem decodeDigits_toDigitsCore :
    ∀ (fuel n : Nat), n < fuel → decodeDigits (Nat.toDigitsCore 10 fuel n []) = n := by
  intro fuel
  induction fuel with
  | zero => intro n h; exact absurd h (Nat.not_lt_zero n)
  | succ fuel ih =>
    intro n hn
    simp only [Nat.toDigitsCore]
    by_cases h : n / 10 = 0
    · have h10 : n < 10 := by omega
      have hmod : n % 10 = n := by omega
      simp [h, decodeDigits, hmod, digitVal_digitChar n h10]
    · have h3 : n / 10 < fuel := by omega
      rw [if_neg h, toDigitsCore_append, decodeDigits_append_singleton, ih _ h3,
        digitVal_digitChar _ (Nat.mod_lt _ (by norm_num))]
      omega

theorem natRepr_inj {m n : Nat} (h : Nat.repr m = Nat.repr n) : m = n := by
  have hd : Nat.toDigits 10 m = Nat.toDigits 10 n := by
    have hdata := congrArg String.data h
    simpa [Nat.repr, List.asString] using hdata
  have hm : decodeDigits (Nat.toDigits 10 m) = m :=
    decodeDigits_toDigitsCore (m + 1) m (Nat.lt_succ_self m)
  have hn : decodeDigits (Nat.toDigits 10 n) = n :=
    decodeDigits_toDigitsCore (n + 1) n (Nat.lt_succ_self n)
  rw [← hm, hd, hn]

theorem intRepr_nonneg (a : Int) (h : 0 ≤ a) : Int.repr a = Nat.repr a.toNat := by
  cases a with
  | ofNat m => rfl
  | negSucc m => exact absurd h (Int.negSucc_lt_zero m).not_le

theorem stringAppend_cancel {a b c : String} (h : a ++ b = a ++ c) : b = c := by
  have hd := congrArg String.data h
  rw [String.data_append, String.data_append] at hd
  exact String.ext (List.append_cancel_left hd)

theorem orderPrefixed_ne_empty (s : String) : ("order_" ++ s) ≠ "" := by
  intro h
  have hl := congrArg String.length h
  rw [String.length_append] at hl
  have h6 : ("order_" : String).length = 6 := rfl
  have h0 : ("" : String).length = 0 := rfl
  omega

/-- Growth of the timestamp-derived fallback identifier: clock readings more
than one second apart truncate to different second counts. -/
theorem pyInt_lt {t1 t2 : Int} (h1 : 0 ≤ t1) (hgap : t1 + 1000000 < t2) :
    pyInt t1 < pyInt t2 := by
  unfold pyInt
  rw [Int.tdiv_eq_ediv h1 (by norm_num), Int.tdiv_eq_ediv (by omega) (by norm_num)]
  omega

/-- The generated fallback order identifiers of two requests more than one
second apart differ. -/
theorem generated_id_ne {t1 t2 : Int} (h1 : 0 ≤ t1) (hgap : t1 + 1000000 < t2) :
    ("order_" ++ Int.repr (pyInt t1)) ≠ ("order_" ++ Int.repr (pyInt t2)) := by
  intro h
  have hlt : pyInt t1 < pyInt t2 := pyInt_lt h1 hgap
  have hn1 : 0 ≤ pyInt t1 := by
    unfold pyInt; rw [Int.tdiv_eq_ediv h1 (by norm_num)]; omega
  have hn2 : 0 ≤ pyInt t2 := by omega
  have hr := stringAppend_cancel h
  rw [intRepr_nonneg _ hn1, intRepr_nonneg _ hn2] at hr
  have := natRepr_inj hr
  omega

/-! Facts about the authorization check. -/

theorem pySplitSpace_ne_nil : ∀ l : List Char, pySplitSpace l ≠ []
  | [] => by simp [pySplitSpace]
  | c :: cs => by
    by_cases hc : c = ' '
    · simp [pySplitSpace, hc]
    · cases h : pySplitSpace cs with
      | nil => simp [pySplitSpace, hc, h]
      | cons w ws => simp [pySplitSpace, hc, h]

theorem pySplitSpace_no_space : ∀ l : List Char, ' ' ∉ l → pySplitSpace l = [l]
  | [], _ => rfl
  | c :: cs, h => by
    have hc : ¬ c = ' ' := fun hc => h (hc ▸ List.mem_cons_self c cs)
    have ih := pySplitSpace_no_space cs (fun hm => h (List.mem_cons_of_mem c hm))
    simp [pySplitSpace, hc, ih]

theorem pySplitSpace_marker (rest : List Char) :
    pySplitSpace (bearerMarker ++ rest) =
      ['B', 'e', 'a', 'r', 'e', 'r'] :: pySplitSpace rest := by
  obtain ⟨w, ws, hw⟩ := List.exists_cons_of_ne_nil (pySplitSpace_ne_nil rest)
  show pySplitSpace ('B' :: 'e' :: 'a' :: 'r' :: 'e' :: 'r' :: ' ' :: rest) = _
  simp [pySplitSpace, hw]

/-- Whenever the header starts with the scheme marker, Python's
`auth_header.split(' ')` has at least two chunks, so the source's index `[1]`
cannot raise. -/
theorem pySplitSpace_two_chunks (rest : List Char) :
    2 ≤ (pySplitSpace (bearerMarker ++ rest)).length := by
  rw [pySplitSpace_marker]
  obtain ⟨w, ws, hw⟩ := List.exists_cons_of_ne_nil (pySplitSpace_ne_nil rest)
  simp [hw]

/-- The check accepts a header of the exact shape the specification
describes, provided the configured key has no space in it. -/
theorem checkAuth_exact (apiKey : String) (hsp : ' ' ∉ apiKey.data) :
    checkAuth apiKey (some ("Bearer " ++ apiKey)) = .ok := by
  have hdata : ("Bearer " ++ apiKey).data = bearerMarker ++ apiKey.data := by
    rw [String.data_append]; rfl
  simp only [checkAuth]
  rw [hdata, if_pos, pySplitSpace_marker, pySplitSpace_no_space _ hsp]
  · simp
  · exact List.isPrefixOf_iff_prefix.mpr (List.prefix_append _ _)

/-- A header of the exact `Bearer token` shape with a space-free token other
than the key is rejected as an invalid key. -/
theorem checkAuth_wrong_key (apiKey tok : String) (hsp : ' ' ∉ tok.data)
    (hne : tok ≠ apiKey) :
    checkAuth apiKey (some ("Bearer " ++ tok)) = .invalidKey := by
  have hdata : ("Bearer " ++ tok).data = bearerMarker ++ tok.data := by
    rw [String.data_append]; rfl
  simp only [checkAuth]
  rw [hdata, if_pos, pySplitSpace_marker, pySplitSpace_no_space _ hsp]
  · have : tok.data ≠ apiKey.data := fun hd => hne (String.ext hd)
    simp [this]
  · exact List.isPrefixOf_iff_prefix.mpr (List.prefix_append _ _)

/-- A header that does not start with `Bearer ` is rejected as missing or
invalid, whatever it is. -/
theorem checkAuth_no_marker (apiKey : String) (h : String)
    (hm : ¬ bearerMarker.isPrefixOf h.data) :
    checkAuth apiKey (some h) = .missingHeader := by
  simp only [checkAuth]
  rw [if_neg hm]

/-! Facts about the rate limiter. -/

/-- Entries recorded at least one minute before the current check are never
kept in the stored record. -/
theorem is_rate_limited_drops_stale (times : List Int) (now : Int) (t : Int)
    (ht : t ≤ now - minuteDelta) : t ∉ (is_rate_limited times now).2 := by
  unfold is_rate_limited
  intro hmem
  by_cases hfull : MAX_REQUESTS_PER_MINUTE ≤ (times.filter (fun x => decide (now - minuteDelta < x))).length
  · rw [if_pos hfull] at hmem
    have := (List.mem_filter.mp hmem).2
    simp at this
    omega
  · rw [if_neg hfull] at hmem
    rcases List.mem_append.mp hmem with hl | hr
    · have := (List.mem_filter.mp hl).2
      simp at this
      omega
    · have : minuteDelta > 0 := by norm_num [minuteDelta]
      simp at hr
      omega

/-- Entries strictly inside the trailing minute survive the pruning. -/
theorem is_rate_limited_keeps_recent (times : List Int) (now : Int) (t : Int)
    (hmem : t ∈ times) (ht : now - minuteDelta < t) : t ∈ (is_rate_limited times now).2 := by
  unfold is_rate_limited
  have hf : t ∈ times.filter (fun x => decide (now - minuteDelta < x)) :=
    List.mem_filter.mpr ⟨hmem, by simpa using ht⟩
  by_cases hfull : MAX_REQUESTS_PER_MINUTE ≤ (times.filter (fun x => decide (now - minuteDelta < x))).length
  · rw [if_pos hfull]; exact hf
  · rw [if_neg hfull]; exact List.mem_append.mpr (Or.inl hf)

/-- When the pruned record is at the threshold the request is rejected and
nothing is recorded. -/
theorem is_rate_limited_rejects (times : List Int) (now : Int)
    (hfull : MAX_REQUESTS_PER_MINUTE ≤
      (times.filter (fun x => decide (now - minuteDelta < x))).length) :
    is_rate_limited times now =
      (true, times.filter (fun x => decide (now - minuteDelta < x))) := by
  unfold is_rate_limited
  rw [if_pos hfull]

/-- When the pruned record is below the threshold the request is admitted and
the current instant is recorded. -/
theorem is_rate_limited_admits (times : List Int) (now : Int)
    (hroom : (times.filter (fun x => decide (now - minuteDelta < x))).length <
      MAX_REQUESTS_PER_MINUTE) :
    is_rate_limited times now =
      (false, times.filter (fun x => decide (now - minuteDelta < x)) ++ [now]) := by
  unfold is_rate_limited
  rw [if_neg (by omega)]

/-- Processing a burst that fits inside one minute and inside the threshold:
every request is admitted and every instant recorded. -/
theorem rlRun_burst (a : Int) :
    ∀ (ts : List Int) (w : List Int),
      (∀ x ∈ w, a ≤ x ∧ x < a + minuteDelta) →
      (∀ x ∈ ts, a ≤ x ∧ x < a + minuteDelta) →
      w.length + ts.length ≤ MAX_REQUESTS_PER_MINUTE →
      rlRun w ts = (List.replicate ts.length false, w ++ ts)
  | [], w, _, _, _ => by simp [rlRun]
  | t :: ts, w, hw, hts, hlen => by
    have htw : a ≤ t ∧ t < a + minuteDelta := hts t (List.mem_cons_self t ts)
    have hfilter : w.filter (fun x => decide (t - minuteDelta < x)) = w := by
      rw [List.filter_eq_self]
      intro x hx
      have hxw := hw x hx
      simp only [decide_eq_true_eq]
      omega
    have hstep : is_rate_limited w t = (false, w ++ [t]) := by
      rw [is_rate_limited_admits, hfilter]
      rw [hfilter]
      simp at hlen ⊢
      omega
    have hrec := rlRun_burst a ts (w ++ [t])
      (by
        intro x hx
        rcases List.mem_append.mp hx with hl | hr
        · exact hw x hl
        · simp at hr
          omega)
      (fun x hx => hts x (List.mem_cons_of_mem t hx))
      (by simp at hlen ⊢; omega)
    simp only [rlRun, hstep, hrec]
    simp [List.replicate_succ]

/-! Facts about the brew pipeline. -/

/-- The per-item progress events the loop publishes when no exception occurs:
one "brewing" event per item, 1-indexed against the order size. -/
def brewEvents (user_id order_id : Json) (total : Nat) : Nat → Nat → List StatusEvent
  | _, 0 => []
  | i, n + 1 =>
    ⟨user_id, order_id, .str "brewing",
      .str ("Making drink " ++ Nat.repr (i + 1) ++ " of " ++ Nat.repr total)⟩
      :: brewEvents user_id order_id total (i + 1) n

theorem brewEvents_length (user_id order_id : Json) (total : Nat) :
    ∀ (n i : Nat), (brewEvents user_id order_id total i n).length = n
  | 0, _ => rfl
  | n + 1, i => by
    simp [brewEvents, brewEvents_length user_id order_id total n (i + 1)]

/-- The k-th progress event announces drink number k+1 (1-indexed). -/
theorem brewEvents_getD (user_id order_id : Json) (total : Nat) (d : StatusEvent) :
    ∀ (n i k : Nat), k < n →
      (brewEvents user_id order_id total i n).getD k d =
        ⟨user_id, order_id, .str "brewing",
          .str ("Making drink " ++ Nat.repr (i + k + 1) ++ " of " ++ Nat.repr total)⟩
  | 0, _, k, hk => absurd hk (Nat.not_lt_zero k)
  | n + 1, i, 0, _ => rfl
  | n + 1, i, k + 1, hk => by
    have ih := brewEvents_getD user_id order_id total d n (i + 1) k (by omega)
    simp only [brewEvents, List.getD_cons_succ, ih]
    have harith : i + 1 + k + 1 = i + (k + 1) + 1 := by omega
    rw [harith]

/-- A loop body that never raises publishes exactly the per-item progress
events and reports no exception. -/
theorem brew_loop_ok (act : BrewAct) (user_id order_id : Json) (total : Nat)
    (hact : ∀ k item, act k item = .ok ()) :
    ∀ (items : List Json) (i : Nat),
      brew_loop act user_id order_id total items i =
        (brewEvents user_id order_id total i items.length, none)
  | [], _ => rfl
  | item :: rest, i => by
    have ih := brew_loop_ok act user_id order_id total hact rest (i + 1)
    simp [brew_loop, hact i item, ih, brewEvents]

/-- A loop body that raises at position p, after succeeding on the p items
before it, publishes the progress events of those p items and reports the
exception's message. -/
theorem brew_loop_raises (act : BrewAct) (user_id order_id : Json) (total : Nat)
    (msg : String) :
    ∀ (pre : List Json) (failing : Json) (rest : List Json) (i : Nat),
      (∀ k, k < pre.length → act (i + k) (pre.getD k .null) = .ok ()) →
      act (i + pre.length) failing = .error msg →
      brew_loop act user_id order_id total (pre ++ failing :: rest) i =
        (brewEvents user_id order_id total i pre.length, some msg)
  | [], failing, rest, i, _, hfail => by
    have h0 : act i failing = .error msg := by simpa using hfail
    simp [brew_loop, h0, brewEvents]
  | p :: ps, failing, rest, i, hok, hfail => by
    have h0 : act i p = .ok () := by simpa using hok 0 (by simp)
    have ih := brew_loop_raises act user_id order_id total msg ps failing rest (i + 1)
      (by
        intro k hk
        have := hok (k + 1) (by simpa using Nat.succ_lt_succ hk)
        simpa [Nat.add_assoc, Nat.add_comm 1 k] using this)
      (by
        have harith : i + 1 + ps.length = i + (p :: ps).length := by simp; omega
        rw [harith]
        exact hfail)
    simp [brew_loop, h0, ih, brewEvents]

/-- Every event the pipeline publishes carries the order's user and order
identifiers. -/
theorem brew_loop_ids (act : BrewAct) (user_id order_id : Json) (total : Nat) :
    ∀ (items : List Json) (i : Nat) (e : StatusEvent),
      e ∈ (brew_loop act user_id order_id total items i).1 →
      e.user_id = user_id ∧ e.order_id = order_id
  | [], _, e, hmem => absurd hmem (by simp [brew_loop])
  | item :: rest, i, e, hmem => by
    revert hmem
    simp only [brew_loop]
    cases act i item with
    | error msg => intro hmem; exact absurd hmem (by simp)
    | ok u =>
      intro hmem
      rcases List.mem_cons.mp hmem with he | he
      · subst he; exact ⟨rfl, rfl⟩
      · exact brew_loop_ids act user_id order_id total rest (i + 1) e he

theorem trigger_ids (act : BrewAct) (orders : List Json) (user_id order_id : Json)
    (e : StatusEvent) (hmem : e ∈ trigger_coffee_machine act orders user_id order_id) :
    e.user_id = user_id ∧ e.order_id = order_id := by
  revert hmem
  unfold trigger_coffee_machine
  cases hloop : brew_loop act user_id order_id orders.length orders 0 with
  | mk evs err =>
    cases err with
    | none =>
      intro hmem
      simp only [List.mem_cons, List.mem_append, List.mem_singleton] at hmem
      rcases hmem with (he | he) | (he | he)
      · subst he; exact ⟨rfl, rfl⟩
      · have := brew_loop_ids act user_id order_id orders.length orders 0 e
        rw [hloop] at this
        exact this he
      · subst he; exact ⟨rfl, rfl⟩
      · exact absurd he (List.not_mem_nil e)
    | some msg =>
      intro hmem
      simp only [List.mem_cons, List.mem_append, List.mem_singleton] at hmem
      rcases hmem with (he | he) | (he | he)
      · subst he; exact ⟨rfl, rfl⟩
      · have := brew_loop_ids act user_id order_id orders.length orders 0 e
        rw [hloop] at this
        exact this he
      · subst he; exact ⟨rfl, rfl⟩
      · exact absurd he (List.not_mem_nil e)

/-! Handler-path helpers. -/

/-- Placeholder event used as the default of positional lookups. -/
def noEvent : StatusEvent := ⟨.null, .null, .null, .null⟩

theorem is_rate_limited_eq_of_admitted (times : List Int) (now : Int)
    (hrl : (is_rate_limited times now).1 = false) :
    is_rate_limited times now = (false, (is_rate_limited times now).2) := by
  rw [← hrl]

/-- The accepted path of the order-notification endpoint on a non-empty
object payload: the success body and the published events, spelled out. -/
theorem order_notification_accepted (apiKey : String) (act : BrewAct) (times : List Int)
    (now : Int) (auth : Option String) (fields : List (String × Json))
    (hrl : (is_rate_limited times now).1 = false)
    (hauth : checkAuth apiKey auth = .ok)
    (hne : fields ≠ []) :
    order_notification apiKey act times now auth (some (.obj fields)) =
      ⟨.ok [("message", .str "Order notification received and processed"),
            ("status", .str "success"),
            ("timestamp", .str (Int.repr now)),
            ("order_count", jGet fields "orderCount" (.num 0)),
            ("total_value", jGet fields "totalValue" (.num 0)),
            ("order_id", jGet fields "orderId" (.str ("order_" ++ Int.repr (pyInt now))))],
       ⟨jGet fields "userId" (.str "unknown"),
        jGet fields "orderId" (.str ("order_" ++ Int.repr (pyInt now))),
        .str "preparing", .str "Order received, starting preparation"⟩
         :: trigger_coffee_machine act
              (jItems (jGet fields "orders" (.arr [])))
              (jGet fields "userId" (.str "unknown"))
              (jGet fields "orderId" (.str ("order_" ++ Int.repr (pyInt now)))),
       (is_rate_limited times now).2⟩ := by
  obtain ⟨f, fs, hf⟩ := List.exists_cons_of_ne_nil hne
  subst hf
  unfold order_notification
  rw [is_rate_limited_eq_of_admitted times now hrl, hauth]
  rfl

/-- A never-raising loop body: the pipeline publishes the starting event, the
per-item progress events, and the "ready" event, in that order. -/
theorem trigger_ok (act : BrewAct) (hact : ∀ k item, act k item = .ok ())
    (orders : List Json) (user_id order_id : Json) :
    trigger_coffee_machine act orders user_id order_id =
      ⟨user_id, order_id, .str "brewing", .str "Coffee machine started"⟩
        :: brewEvents user_id order_id orders.length 0 orders.length
        ++ [⟨user_id, order_id, .str "ready", .str "Order completed and ready for pickup"⟩] := by
  unfold trigger_coffee_machine
  rw [brew_loop_ok act user_id order_id orders.length hact orders 0]

/-- A loop body that raises at position p: the pipeline publishes the
starting event, the progress events of the p completed items, and one
terminal "error" event carrying the exception's message after the `Error: `
marker; nothing afterwards. -/
theorem trigger_raises (act : BrewAct) (pre rest : List Json) (failing : Json)
    (user_id order_id : Json) (msg : String)
    (hok : ∀ k, k < pre.length → act k (pre.getD k .null) = .ok ())
    (hfail : act pre.length failing = .error msg) :
    trigger_coffee_machine act (pre ++ failing :: rest) user_id order_id =
      ⟨user_id, order_id, .str "brewing", .str "Coffee machine started"⟩
        :: brewEvents user_id order_id (pre ++ failing :: rest).length 0 pre.length
        ++ [⟨user_id, order_id, .str "error", .str ("Error: " ++ msg)⟩] := by
  unfold trigger_coffee_machine
  rw [brew_loop_raises act user_id order_id (pre ++ failing :: rest).length msg pre failing rest 0
    (by simpa using hok) (by simpa using hfail)]

/-- C4: the admission check prunes every entry older than the trailing
minute, rejects at the threshold without recording the new attempt, and
otherwise records the current instant and admits; consequently a burst of at
most ten requests falling inside one common minute is admitted in full, and
an eleventh request inside the same window is rejected with nothing
recorded. -/
theorem C4_rate_limit (times : List Int) (now : Int) (ts : List Int) (t a : Int)
    (hts : ∀ x ∈ ts, a ≤ x ∧ x < a + minuteDelta)
    (hlen : ts.length ≤ MAX_REQUESTS_PER_MINUTE)
    (ht : a ≤ t ∧ t < a + minuteDelta) :
    (∀ x, x < now - minuteDelta → x ∉ (is_rate_limited times now).2)
    ∧ (MAX_REQUESTS_PER_MINUTE ≤
          (times.filter (fun x => decide (now - minuteDelta < x))).length →
        is_rate_limited times now =
          (true, times.filter (fun x => decide (now - minuteDelta < x))))
    ∧ ((times.filter (fun x => decide (now - minuteDelta < x))).length <
          MAX_REQUESTS_PER_MINUTE →
        is_rate_limited times now =
          (false, times.filter (fun x => decide (now - minuteDelta < x)) ++ [now]))
    ∧ (rlRun [] ts).1 = List.replicate ts.length false
    ∧ (ts.length = MAX_REQUESTS_PER_MINUTE →
        is_rate_limited (rlRun [] ts).2 t = (true, ts)) := by
  have hburst := rlRun_burst a ts [] (by simp) hts (by simpa using hlen)
  refine ⟨?_, ?_, ?_, ?_, ?_⟩
  · intro x hx
    exact is_rate_limited_drops_stale times now x (by omega)
  · exact is_rate_limited_rejects times now
  · exact is_rate_limited_admits times now
  · rw [hburst]
  · intro h10
    rw [hburst]
    have hfilter : ts.filter (fun x => decide (t - minuteDelta < x)) = ts := by
      rw [List.filter_eq_self]
      intro x hx
      have := hts x hx
      simp only [decide_eq_true_eq]
      omega
    have := is_rate_limited_rejects ts t (by rw [hfilter]; omega)
    simpa [hfilter] using this

theorem C4_rate_limit_witness :
    ((∀ x ∈ ([0, 1, 2, 3, 4, 5, 6, 7, 8, 9] : List Int), (0:Int) ≤ x ∧ x < 0 + minuteDelta)
      ∧ ([0, 1, 2, 3, 4, 5, 6, 7, 8, 9] : List Int).length ≤ MAX_REQUESTS_PER_MINUTE
      ∧ ((0:Int) ≤ 10 ∧ (10:Int) < 0 + minuteDelta))
    ∧ ((rlRun [] ([0, 1, 2, 3, 4, 5, 6, 7, 8, 9] : List Int)).1 =
          List.replicate 10 false
        ∧ is_rate_limited (rlRun [] ([0, 1, 2, 3, 4, 5, 6, 7, 8, 9] : List Int)).2 10 =
          (true, ([0, 1, 2, 3, 4, 5, 6, 7, 8, 9] : List Int))) := by
  have h := C4_rate_limit [] 0 ([0, 1, 2, 3, 4, 5, 6, 7, 8, 9] : List Int) 10 0
    (by decide) (by decide) (by decide)
  exact ⟨⟨by decide, by decide, by decide⟩, h.2.2.2.1, h.2.2.2.2 (by decide)⟩

/-- C3 as stated fails: the code does not require the exact `Bearer token`
shape.  A header carrying extra content after a matching second chunk - here
`Bearer k extra` under key `k` - is not of the exact shape, yet the check
accepts it and the endpoint runs its business logic and answers 200. -/
theorem C3_cex :
    checkAuth "k" (some "Bearer k extra") = .ok
    ∧ ("Bearer k extra" : String) ≠ "Bearer " ++ "k"
    ∧ (order_notification "k" pureBrew [] 0 (some "Bearer k extra")
        (some (.obj [("userId", .str "u")]))).resp.code = 200
    ∧ (order_notification "k" pureBrew [] 0 (some "Bearer k extra")
        (some (.obj [("userId", .str "u")]))).events ≠ [] := by
  refine ⟨rfl, by decide, rfl, ?_⟩
  intro h
  exact absurd (congrArg List.length h) (by decide)

/-- C3 amended: whenever the inline check fails - header absent, scheme
marker missing, or second space-separated chunk differing from the key -
every authenticated endpoint answers 401 and publishes nothing, and a
wrongly-keyed header of the exact shape is one such failure; the check is
on the second space-separated chunk only, not on the exact header shape. -/
theorem C3_auth (apiKey : String) (auth : Option String) (act : BrewAct)
    (times : List Int) (now : Int) (body : Option Json) (cfg : FirebaseCfg)
    (uid oid : String)
    (hauth : checkAuth apiKey auth ≠ .ok)
    (hrl : (is_rate_limited times now).1 = false) :
    ((order_notification apiKey act times now auth body).resp.code = 401
      ∧ (order_notification apiKey act times now auth body).events = [])
    ∧ ((submit_number apiKey times now auth body).resp.code = 401
      ∧ (submit_number apiKey times now auth body).events = [])
    ∧ ((test_endpoint apiKey cfg times now auth body).resp.code = 401
      ∧ (test_endpoint apiKey cfg times now auth body).events = [])
    ∧ ((update_order_status apiKey cfg now uid oid auth body).1.code = 401
      ∧ (update_order_status apiKey cfg now uid oid auth body).2 = [])
    ∧ (∀ tok : String, ' ' ∉ tok.data → tok ≠ apiKey →
        checkAuth apiKey (some ("Bearer " ++ tok)) = .invalidKey) := by
  have hp := is_rate_limited_eq_of_admitted times now hrl
  cases hc : checkAuth apiKey auth with
  | ok => exact absurd hc hauth
  | missingHeader =>
    refine ⟨⟨?_, ?_⟩, ⟨?_, ?_⟩, ⟨?_, ?_⟩, ⟨?_, ?_⟩, ?_⟩
    all_goals first
      | (unfold order_notification; rw [hp, hc]; try rfl)
      | (unfold submit_number; rw [hp, hc]; try rfl)
      | (unfold test_endpoint; rw [hp, hc]; try rfl)
      | (unfold update_order_status; rw [hc]; try rfl)
      | (intro tok h1 h2; exact checkAuth_wrong_key apiKey tok h1 h2)
  | invalidKey =>
    refine ⟨⟨?_, ?_⟩, ⟨?_, ?_⟩, ⟨?_, ?_⟩, ⟨?_, ?_⟩, ?_⟩
    all_goals first
      | (unfold order_notification; rw [hp, hc]; try rfl)
      | (unfold submit_number; rw [hp, hc]; try rfl)
      | (unfold test_endpoint; rw [hp, hc]; try rfl)
      | (unfold update_order_status; rw [hc]; try rfl)
      | (intro tok h1 h2; exact checkAuth_wrong_key apiKey tok h1 h2)

theorem C3_auth_witness :
    (checkAuth "k" (some "Bearer wrong") ≠ .ok
      ∧ (is_rate_limited [] 0).1 = false)
    ∧ (order_notification "k" pureBrew [] 0 (some "Bearer wrong") none).resp.code = 401
    ∧ (update_order_status "k" ⟨false, false, false⟩ 0 "u" "o"
        (some "Bearer wrong") none).2 = [] := by
  have h := C3_auth "k" (some "Bearer wrong") pureBrew [] 0 none
    ⟨false, false, false⟩ "u" "o" (by decide) (by decide)
  exact ⟨⟨by decide, by decide⟩, h.1.1, h.2.2.2.1.2⟩

/-- C2 as stated fails: with valid authorization, the empty JSON object is
answered 400 `No JSON data provided` - the handler's falsy-body test treats
the empty dict like an absent body - and in particular no success body is
returned. -/
theorem C2_cex :
    (order_notification "k" pureBrew [] 0 (some "Bearer k") (some (.obj []))).resp
      = .err 400 "No JSON data provided"
    ∧ (∀ fields, (order_notification "k" pureBrew [] 0 (some "Bearer k")
        (some (.obj []))).resp ≠ .ok fields)
    ∧ (order_notification "k" pureBrew [] 0 (some "Bearer k") (some (.obj []))).resp.code ≠ 200 := by
  refine ⟨rfl, ?_, by decide⟩
  intro fields h
  exact Resp.noConfusion h

/-- C2 amended: the empty object body is rejected 400 exactly like an absent
body; a request whose body is a non-empty JSON object carrying none of the
order fields does succeed, with order_count 0, total_value 0, and a
non-empty server-generated order id. -/
theorem C2_empty_payload (apiKey : String) (act : BrewAct) (times : List Int) (now : Int)
    (auth : Option String) (fields : List (String × Json))
    (hrl : (is_rate_limited times now).1 = false)
    (hauth : checkAuth apiKey auth = .ok)
    (hne : fields ≠ [])
    (hoc : fields.lookup "orderCount" = none)
    (htv : fields.lookup "totalValue" = none)
    (hoid : fields.lookup "orderId" = none) :
    (order_notification apiKey act times now auth (some (.obj []))).resp
        = .err 400 "No JSON data provided"
    ∧ (order_notification apiKey act times now auth (some (.obj fields))).resp.code = 200
    ∧ (order_notification apiKey act times now auth
        (some (.obj fields))).resp.field "order_count" = some (.num 0)
    ∧ (order_notification apiKey act times now auth
        (some (.obj fields))).resp.field "total_value" = some (.num 0)
    ∧ (order_notification apiKey act times now auth
        (some (.obj fields))).resp.field "order_id"
        = some (.str ("order_" ++ Int.repr (pyInt now)))
    ∧ ("order_" ++ Int.repr (pyInt now)) ≠ "" := by
  have hacc := order_notification_accepted apiKey act times now auth fields hrl hauth hne
  have h400 : (order_notification apiKey act times now auth (some (.obj []))).resp
      = .err 400 "No JSON data provided" := by
    unfold order_notification
    rw [is_rate_limited_eq_of_admitted times now hrl, hauth]
    rfl
  refine ⟨h400, ?_, ?_, ?_, ?_, orderPrefixed_ne_empty _⟩
  · rw [hacc]
    rfl
  · rw [hacc]
    show List.lookup _ _ = _
    simp only [jGet, hoc]
    rfl
  · rw [hacc]
    show List.lookup _ _ = _
    simp only [jGet, htv]
    rfl
  · rw [hacc]
    show List.lookup _ _ = _
    simp only [jGet, hoid]
    rfl

theorem C2_empty_payload_witness :
    ((is_rate_limited [] 5000000).1 = false
      ∧ checkAuth "k" (some "Bearer k") = .ok
      ∧ ([("note", Json.str "hi")] : List (String × Json)) ≠ []
      ∧ ([("note", Json.str "hi")] : List (String × Json)).lookup "orderCount" = none)
    ∧ (order_notification "k" pureBrew [] 5000000 (some "Bearer k")
        (some (.obj []))).resp = .err 400 "No JSON data provided"
    ∧ (order_notification "k" pureBrew [] 5000000 (some "Bearer k")
        (some (.obj [("note", Json.str "hi")]))).resp.field "order_id"
        = some (.str ("order_" ++ Int.repr (pyInt 5000000))) := by
  have h := C2_empty_payload "k" pureBrew [] 5000000 (some "Bearer k")
    [("note", Json.str "hi")] (by decide) (by decide) (by simp) rfl rfl rfl
  exact ⟨⟨by decide, by decide, by simp, rfl⟩, h.1, h.2.2.2.2.1⟩

/-- C6: with the remote store unavailable or uninitialized the publisher
returns false with no remote write attempted; when configured, a failing
write is caught into a false result; the publisher always returns (it never
raises to its caller), and an accepted order notification is answered 200
no matter what - the handlers discard the publisher's result. -/
theorem C6_publisher (cfg : FirebaseCfg) (u o s m : Json) (apiKey : String) (act : BrewAct)
    (times : List Int) (now : Int) (auth : Option String) (fields : List (String × Json))
    (hrl : (is_rate_limited times now).1 = false)
    (hauth : checkAuth apiKey auth = .ok)
    (hne : fields ≠ []) :
    (cfg.firebase_available = false ∨ cfg.firebase_app = false →
      send_status_to_app cfg u o s m = (false, none))
    ∧ (cfg.write_ok = false → (send_status_to_app cfg u o s m).1 = false)
    ∧ (order_notification apiKey act times now auth (some (.obj fields))).resp.code = 200
    ∧ (order_notification apiKey act times now auth
        (some (.obj fields))).resp.field "status" = some (.str "success") := by
  refine ⟨?_, ?_, ?_, ?_⟩
  · intro hun
    unfold send_status_to_app
    rcases hun with h | h <;> simp [h]
  · intro hw
    unfold send_status_to_app
    by_cases ha : cfg.firebase_available <;> by_cases hb : cfg.firebase_app <;>
      simp [ha, hb, hw]
  · rw [order_notification_accepted apiKey act times now auth fields hrl hauth hne]
    rfl
  · rw [order_notification_accepted apiKey act times now auth fields hrl hauth hne]
    rfl

theorem C6_publisher_witness :
    ((is_rate_limited [] 0).1 = false
      ∧ checkAuth "k" (some "Bearer k") = .ok
      ∧ ([("userId", Json.str "u")] : List (String × Json)) ≠ [])
    ∧ send_status_to_app ⟨false, false, true⟩ (.str "u") (.str "o") (.str "test") (.str "hello")
        = (false, none)
    ∧ (order_notification "k" pureBrew [] 0 (some "Bearer k")
        (some (.obj [("userId", Json.str "u")]))).resp.code = 200 := by
  have h := C6_publisher ⟨false, false, true⟩ (.str "u") (.str "o") (.str "test") (.str "hello")
    "k" pureBrew [] 0 (some "Bearer k") [("userId", Json.str "u")]
    (by decide) (by decide) (by simp)
  exact ⟨⟨by decide, by decide, by simp⟩, h.1 (Or.inl rfl), h.2.2.1⟩

/-- C10: on the manual status route a valid key with an absent body or a
body that is not a JSON object always produces the generic 500 - the body is
only dereferenced inside the catch-all - and never the 400 that the other
endpoints give for missing bodies. -/
theorem C10_status_route (apiKey : String) (cfg : FirebaseCfg) (now : Int)
    (uid oid : String) (auth : Option String) (body : Option Json)
    (hauth : checkAuth apiKey auth = .ok)
    (hbody : body = none ∨ ∀ fields, body ≠ some (.obj fields)) :
    (update_order_status apiKey cfg now uid oid auth body).1
        = .err 500 "Internal server error"
    ∧ (update_order_status apiKey cfg now uid oid auth body).1.code ≠ 400
    ∧ (update_order_status apiKey cfg now uid oid auth body).2 = [] := by
  have h500 : (update_order_status apiKey cfg now uid oid auth body).1
      = .err 500 "Internal server error" := by
    unfold update_order_status
    rw [hauth]
    rcases hbody with rfl | hno
    · rfl
    · cases body with
      | none => rfl
      | some v =>
        cases v with
        | obj fields => exact absurd rfl (hno fields)
        | null => rfl
        | bool b => rfl
        | num q => rfl
        | str s => rfl
        | arr items => rfl
  have hevs : (update_order_status apiKey cfg now uid oid auth body).2 = [] := by
    unfold update_order_status
    rw [hauth]
    rcases hbody with rfl | hno
    · rfl
    · cases body with
      | none => rfl
      | some v =>
        cases v with
        | obj fields => exact absurd rfl (hno fields)
        | null => rfl
        | bool b => rfl
        | num q => rfl
        | str s => rfl
        | arr items => rfl
  refine ⟨h500, ?_, hevs⟩
  rw [h500]
  decide

theorem C10_status_route_witness :
    (checkAuth "k" (some "Bearer k") = .ok
      ∧ ((none : Option Json) = none ∨ ∀ fields, (none : Option Json) ≠ some (.obj fields)))
    ∧ (update_order_status "k" ⟨true, true, true⟩ 0 "u" "o" (some "Bearer k") none).1
        = .err 500 "Internal server error"
    ∧ (update_order_status "k" ⟨true, true, true⟩ 0 "u" "o" (some "Bearer k")
        (some (.str "not an object"))).1.code ≠ 400 := by
  have h1 := C10_status_route "k" ⟨true, true, true⟩ 0 "u" "o" (some "Bearer k") none
    (by decide) (Or.inl rfl)
  have h2 := C10_status_route "k" ⟨true, true, true⟩ 0 "u" "o" (some "Bearer k")
    (some (.str "not an object")) (by decide)
    (Or.inr (fun fields h => Json.noConfusion (Option.some.inj h)))
  exact ⟨⟨by decide, Or.inl rfl⟩, h1.1, h2.2.1⟩

/-- C8: on each of the three rate-limited endpoints the admission check runs
first and records the current instant, and only then is authentication
checked - so an admitted request that fails authentication still leaves its
timestamp in the caller's record, consuming one of the ten per-minute
slots, while the response is 401. -/
theorem C8_slot_consumed (apiKey : String) (act : BrewAct) (cfg : FirebaseCfg)
    (times : List Int) (now : Int) (auth : Option String) (body : Option Json)
    (hroom : (times.filter (fun x => decide (now - minuteDelta < x))).length <
      MAX_REQUESTS_PER_MINUTE)
    (hauth : checkAuth apiKey auth ≠ .ok) :
    ((order_notification apiKey act times now auth body).window
        = times.filter (fun x => decide (now - minuteDelta < x)) ++ [now]
      ∧ (order_notification apiKey act times now auth body).resp.code = 401)
    ∧ ((submit_number apiKey times now auth body).window
        = times.filter (fun x => decide (now - minuteDelta < x)) ++ [now]
      ∧ (submit_number apiKey times now auth body).resp.code = 401)
    ∧ ((test_endpoint apiKey cfg times now auth body).window
        = times.filter (fun x => decide (now - minuteDelta < x)) ++ [now]
      ∧ (test_endpoint apiKey cfg times now auth body).resp.code = 401) := by
  have hadm := is_rate_limited_admits times now hroom
  cases hc : checkAuth apiKey auth with
  | ok => exact absurd hc hauth
  | missingHeader =>
    refine ⟨⟨?_, ?_⟩, ⟨?_, ?_⟩, ⟨?_, ?_⟩⟩
    all_goals first
      | (unfold order_notification; rw [hadm, hc]; try rfl)
      | (unfold submit_number; rw [hadm, hc]; try rfl)
      | (unfold test_endpoint; rw [hadm, hc]; try rfl)
  | invalidKey =>
    refine ⟨⟨?_, ?_⟩, ⟨?_, ?_⟩, ⟨?_, ?_⟩⟩
    all_goals first
      | (unfold order_notification; rw [hadm, hc]; try rfl)
      | (unfold submit_number; rw [hadm, hc]; try rfl)
      | (unfold test_endpoint; rw [hadm, hc]; try rfl)

theorem C8_slot_consumed_witness :
    ((([3] : List Int).filter (fun x => decide ((5 : Int) - minuteDelta < x))).length <
        MAX_REQUESTS_PER_MINUTE
      ∧ checkAuth "k" (some "Bearer wrong") ≠ .ok)
    ∧ (order_notification "k" pureBrew [3] 5 (some "Bearer wrong") none).window
        = ([3] : List Int).filter (fun x => decide ((5 : Int) - minuteDelta < x)) ++ [5]
    ∧ (submit_number "k" [3] 5 (some "Bearer wrong") none).resp.code = 401 := by
  have h := C8_slot_consumed "k" pureBrew ⟨false, false, false⟩ [3] 5
    (some "Bearer wrong") none (by decide) (by decide)
  exact ⟨⟨by decide, by decide⟩, h.1.1, h.2.1.2⟩

/-- C9: the success body's order_count and total_value are copied verbatim
from the payload's orderCount and totalValue, each defaulting to 0 when
absent, and are never derived from the orders list; the pipeline publishes
one progress event per entry of the orders list (three other events frame
them), so whenever the payload's orderCount is a number differing from the
length of orders, the reported order_count disagrees with the number of
items actually brewed. -/
theorem C9_count_copied (apiKey : String) (times : List Int) (now : Int)
    (auth : Option String) (fields : List (String × Json))
    (hrl : (is_rate_limited times now).1 = false)
    (hauth : checkAuth apiKey auth = .ok)
    (hne : fields ≠ []) :
    (order_notification apiKey pureBrew times now auth
        (some (.obj fields))).resp.field "order_count"
      = some (jGet fields "orderCount" (.num 0))
    ∧ (order_notification apiKey pureBrew times now auth
        (some (.obj fields))).resp.field "total_value"
      = some (jGet fields "totalValue" (.num 0))
    ∧ (order_notification apiKey pureBrew times now auth
        (some (.obj fields))).events.length
      = (jItems (jGet fields "orders" (.arr []))).length + 3
    ∧ (∀ c : ℚ, jGet fields "orderCount" (.num 0) = .num c →
        c ≠ ((jItems (jGet fields "orders" (.arr []))).length : ℚ) →
        (order_notification apiKey pureBrew times now auth
            (some (.obj fields))).resp.field "order_count"
          ≠ some (.num ((jItems (jGet fields "orders" (.arr []))).length))) := by
  have hacc := order_notification_accepted apiKey pureBrew times now auth fields hrl hauth hne
  have hcount : (order_notification apiKey pureBrew times now auth
      (some (.obj fields))).resp.field "order_count"
      = some (jGet fields "orderCount" (.num 0)) := by
    rw [hacc]
    rfl
  refine ⟨hcount, ?_, ?_, ?_⟩
  · rw [hacc]
    rfl
  · rw [hacc]
    show (_ :: trigger_coffee_machine _ _ _ _).length = _
    rw [trigger_ok pureBrew (fun _ _ => rfl)]
    simp [brewEvents_length]
  · intro c hc hdiff habs
    rw [hcount, hc] at habs
    have hj := Option.some.inj habs
    have hqc := Json.num.inj hj
    exact hdiff hqc

theorem C9_count_copied_witness :
    ((is_rate_limited [] 0).1 = false
      ∧ checkAuth "k" (some "Bearer k") = .ok
      ∧ ([("orderCount", Json.num 5),
          ("orders", Json.arr [Json.obj [("name", Json.str "Latte")]])] :
            List (String × Json)) ≠ [])
    ∧ (order_notification "k" pureBrew [] 0 (some "Bearer k")
        (some (.obj [("orderCount", Json.num 5),
          ("orders", Json.arr [Json.obj [("name", Json.str "Latte")]])]))).resp.field
          "order_count" = some (Json.num 5)
    ∧ (order_notification "k" pureBrew [] 0 (some "Bearer k")
        (some (.obj [("orderCount", Json.num 5),
          ("orders", Json.arr [Json.obj [("name", Json.str "Latte")]])]))).resp.field
          "order_count"
        ≠ some (.num ((jItems (jGet
            [("orderCount", Json.num 5),
             ("orders", Json.arr [Json.obj [("name", Json.str "Latte")]])]
            "orders" (.arr []))).length)) := by
  have h := C9_count_copied "k" [] 0 (some "Bearer k")
    [("orderCount", Json.num 5), ("orders", Json.arr [Json.obj [("name", Json.str "Latte")]])]
    (by decide) (by decide) (by simp)
  exact ⟨⟨by decide, by decide, by simp⟩, h.1, h.2.2.2 5 rfl (by decide)⟩

/-- C7: a caller-supplied orderId is echoed verbatim in the success body and
in every status event published for the request; when omitted, the generated
identifier - `order_` followed by the truncated second count of the clock -
is non-empty, and two requests whose clock readings are more than one second
apart receive distinct generated identifiers. -/
theorem C7_order_id (apiKey : String) (act : BrewAct) (times : List Int) (t1 t2 : Int)
    (auth : Option String) (fields fields2 : List (String × Json)) (oid : Json)
    (hauth : checkAuth apiKey auth = .ok)
    (hrl1 : (is_rate_limited times t1).1 = false)
    (hrl2 : (is_rate_limited times t2).1 = false)
    (hne : fields ≠ []) (hoid : fields.lookup "orderId" = some oid)
    (hne2 : fields2 ≠ []) (hoid2 : fields2.lookup "orderId" = none)
    (h1 : 0 ≤ t1) (hgap : t1 + 1000000 < t2) :
    (order_notification apiKey act times t1 auth (some (.obj fields))).resp.field "order_id"
        = some oid
    ∧ (∀ e ∈ (order_notification apiKey act times t1 auth (some (.obj fields))).events,
        e.order_id = oid)
    ∧ (order_notification apiKey act times t1 auth (some (.obj fields2))).resp.field "order_id"
        = some (.str ("order_" ++ Int.repr (pyInt t1)))
    ∧ ("order_" ++ Int.repr (pyInt t1)) ≠ ""
    ∧ (order_notification apiKey act times t1 auth (some (.obj fields2))).resp.field "order_id"
        ≠ (order_notification apiKey act times t2 auth (some (.obj fields2))).resp.field
            "order_id" := by
  have hacc1 := order_notification_accepted apiKey act times t1 auth fields hrl1 hauth hne
  have hjoid : jGet fields "orderId" (.str ("order_" ++ Int.repr (pyInt t1))) = oid := by
    simp [jGet, hoid]
  have hgen : ∀ t : Int, (is_rate_limited times t).1 = false →
      (order_notification apiKey act times t auth (some (.obj fields2))).resp.field "order_id"
        = some (.str ("order_" ++ Int.repr (pyInt t))) := by
    intro t hrlt
    rw [order_notification_accepted apiKey act times t auth fields2 hrlt hauth hne2]
    show List.lookup _ _ = _
    simp only [jGet, hoid2]
    rfl
  refine ⟨?_, ?_, hgen t1 hrl1, orderPrefixed_ne_empty _, ?_⟩
  · rw [hacc1]
    show List.lookup _ _ = _
    simp only [jGet, hoid]
    rfl
  · intro e he
    rw [hacc1] at he
    rcases List.mem_cons.mp he with rfl | hmem
    · exact hjoid
    · have := (trigger_ids act _ _ _ e hmem).2
      rw [this, hjoid]
  · rw [hgen t1 hrl1, hgen t2 hrl2]
    intro h
    exact generated_id_ne h1 hgap (Json.str.inj (Option.some.inj h))

theorem C7_order_id_witness :
    (checkAuth "k" (some "Bearer k") = .ok
      ∧ (is_rate_limited [] 0).1 = false
      ∧ (is_rate_limited [] 2000000).1 = false
      ∧ ([("orderId", Json.str "X")] : List (String × Json)).lookup "orderId"
          = some (Json.str "X")
      ∧ ([("note", Json.null)] : List (String × Json)).lookup "orderId" = none
      ∧ (0 : Int) ≤ 0 ∧ (0 : Int) + 1000000 < 2000000)
    ∧ (order_notification "k" pureBrew [] 0 (some "Bearer k")
        (some (.obj [("orderId", Json.str "X")]))).resp.field "order_id"
        = some (Json.str "X")
    ∧ (order_notification "k" pureBrew [] 0 (some "Bearer k")
        (some (.obj [("note", Json.null)]))).resp.field "order_id"
        ≠ (order_notification "k" pureBrew [] 2000000 (some "Bearer k")
            (some (.obj [("note", Json.null)]))).resp.field "order_id" := by
  have h := C7_order_id "k" pureBrew [] 0 2000000 (some "Bearer k")
    [("orderId", Json.str "X")] [("note", Json.null)] (Json.str "X")
    (by decide) (by decide) (by decide) (by simp) rfl (by simp) rfl
    (by decide) (by decide)
  exact ⟨⟨by decide, by decide, by decide, rfl, rfl, by decide, by decide⟩, h.1, h.2.2.2.2⟩

/-- C1 as stated fails: for the two-item Latte/Espresso payload the pipeline
publishes five status events, because an extra "brewing"/"Coffee machine
started" event precedes the per-item progress events; the claimed four-event
sequence preparing, brewing 1 of 2, brewing 2 of 2, ready is not what is
published. -/
theorem C1_cex :
    (order_notification "k" pureBrew [] 0 (some "Bearer k")
        (some (.obj [("userId", .str "u1"), ("orderId", .str "o1"),
          ("orders", .arr [.obj [("name", .str "Latte")],
            .obj [("name", .str "Espresso")]])]))).events
      = [⟨.str "u1", .str "o1", .str "preparing", .str "Order received, starting preparation"⟩,
         ⟨.str "u1", .str "o1", .str "brewing", .str "Coffee machine started"⟩,
         ⟨.str "u1", .str "o1", .str "brewing", .str "Making drink 1 of 2"⟩,
         ⟨.str "u1", .str "o1", .str "brewing", .str "Making drink 2 of 2"⟩,
         ⟨.str "u1", .str "o1", .str "ready", .str "Order completed and ready for pickup"⟩]
    ∧ (order_notification "k" pureBrew [] 0 (some "Bearer k")
        (some (.obj [("userId", .str "u1"), ("orderId", .str "o1"),
          ("orders", .arr [.obj [("name", .str "Latte")],
            .obj [("name", .str "Espresso")]])]))).events
      ≠ [⟨.str "u1", .str "o1", .str "preparing", .str "Order received, starting preparation"⟩,
         ⟨.str "u1", .str "o1", .str "brewing", .str "Making drink 1 of 2"⟩,
         ⟨.str "u1", .str "o1", .str "brewing", .str "Making drink 2 of 2"⟩,
         ⟨.str "u1", .str "o1", .str "ready", .str "Order completed and ready for pickup"⟩] := by
  refine ⟨rfl, ?_⟩
  intro h
  exact absurd (congrArg List.length h) (by decide)

/-- C1 amended: an accepted order notification with an item list publishes,
in this order, exactly one "preparing" event, one extra "brewing" event
announcing "Coffee machine started", one "brewing" progress event per item -
the k-th announcing "Making drink k+1 of N" - and finally one "ready" event,
which therefore comes after every progress event; nothing else is
published. -/
theorem C1_pipeline (apiKey : String) (times : List Int) (now : Int) (auth : Option String)
    (uid oid : Json) (items : List Json)
    (hrl : (is_rate_limited times now).1 = false)
    (hauth : checkAuth apiKey auth = .ok) :
    (order_notification apiKey pureBrew times now auth
        (some (.obj [("userId", uid), ("orderId", oid), ("orders", .arr items)]))).events
      = ⟨uid, oid, .str "preparing", .str "Order received, starting preparation"⟩
        :: ⟨uid, oid, .str "brewing", .str "Coffee machine started"⟩
        :: brewEvents uid oid items.length 0 items.length
        ++ [⟨uid, oid, .str "ready", .str "Order completed and ready for pickup"⟩]
    ∧ (brewEvents uid oid items.length 0 items.length).length = items.length
    ∧ (∀ k, k < items.length →
        (brewEvents uid oid items.length 0 items.length).getD k noEvent
          = ⟨uid, oid, .str "brewing",
              .str ("Making drink " ++ Nat.repr (k + 1) ++ " of " ++
                Nat.repr items.length)⟩) := by
  have hacc := order_notification_accepted apiKey pureBrew times now auth
    [("userId", uid), ("orderId", oid), ("orders", .arr items)] hrl hauth (by simp)
  refine ⟨?_, brewEvents_length uid oid items.length items.length 0, ?_⟩
  · rw [hacc]
    show (⟨uid, oid, .str "preparing", .str "Order received, starting preparation"⟩
        :: trigger_coffee_machine pureBrew items uid oid : List StatusEvent) = _
    rw [trigger_ok pureBrew (fun _ _ => rfl) items uid oid]
    simp
  · intro k hk
    have h := brewEvents_getD uid oid items.length noEvent items.length 0 k hk
    simpa using h

theorem C1_pipeline_witness :
    ((is_rate_limited [] 0).1 = false
      ∧ checkAuth "k" (some "Bearer k") = .ok)
    ∧ (order_notification "k" pureBrew [] 0 (some "Bearer k")
        (some (.obj [("userId", .str "u"), ("orderId", .str "o"),
          ("orders", .arr [.null, .null, .null])]))).events
      = ⟨.str "u", .str "o", .str "preparing", .str "Order received, starting preparation"⟩
        :: ⟨.str "u", .str "o", .str "brewing", .str "Coffee machine started"⟩
        :: brewEvents (.str "u") (.str "o") 3 0 3
        ++ [⟨.str "u", .str "o", .str "ready", .str "Order completed and ready for pickup"⟩] := by
  have h := C1_pipeline "k" [] 0 (some "Bearer k") (.str "u") (.str "o")
    [.null, .null, .null] (by decide) (by decide)
  exact ⟨⟨by decide, by decide⟩, h.1⟩

/-- A loop body that raises on every item with message `boom`: the concrete
failing actuation used by the error-path scenarios. -/
def boomAct : BrewAct := fun _ _ => .error "boom"

/-- C5 as stated fails in one detail: the terminal "error" event's message
is not the exception's message but `Error: ` followed by it - at the
concrete failing input the published message is "Error: boom", not "boom".
The rest holds: the pipeline publishes the single terminal event, stops, and
the endpoint still answers 200. -/
theorem C5_cex :
    (order_notification "k" boomAct [] 0 (some "Bearer k")
        (some (.obj [("orders", .arr [.obj [("name", .str "Latte")]])]))).events
      = [⟨.str "unknown", .str "order_0", .str "preparing",
            .str "Order received, starting preparation"⟩,
         ⟨.str "unknown", .str "order_0", .str "brewing", .str "Coffee machine started"⟩,
         ⟨.str "unknown", .str "order_0", .str "error", .str "Error: boom"⟩]
    ∧ ((order_notification "k" boomAct [] 0 (some "Bearer k")
        (some (.obj [("orders",
          .arr [.obj [("name", .str "Latte")]])]))).events.getD 2 noEvent).message
      ≠ .str "boom"
    ∧ (order_notification "k" boomAct [] 0 (some "Bearer k")
        (some (.obj [("orders", .arr [.obj [("name", .str "Latte")]])]))).resp.code = 200 := by
  refine ⟨rfl, ?_, rfl⟩
  intro h
  exact absurd (Json.str.inj h) (by decide)

/-- C5 amended: when the loop body raises at position p with message msg,
the pipeline publishes the progress events of the p items completed before
it, then a single terminal "error" event whose message is `Error: `
followed by the exception's message, and nothing afterwards - no retry, no
resumption; the endpoint still answers 200 with a success body once intake
has succeeded, regardless of the brew failure. -/
theorem C5_error_path (apiKey : String) (times : List Int) (now : Int) (auth : Option String)
    (act : BrewAct) (uid oid : Json) (pre rest : List Json) (failing : Json) (msg : String)
    (hrl : (is_rate_limited times now).1 = false)
    (hauth : checkAuth apiKey auth = .ok)
    (hok : ∀ k, k < pre.length → act k (pre.getD k .null) = .ok ())
    (hfail : act pre.length failing = .error msg) :
    (order_notification apiKey act times now auth
        (some (.obj [("userId", uid), ("orderId", oid),
          ("orders", .arr (pre ++ failing :: rest))]))).events
      = ⟨uid, oid, .str "preparing", .str "Order received, starting preparation"⟩
        :: ⟨uid, oid, .str "brewing", .str "Coffee machine started"⟩
        :: brewEvents uid oid (pre ++ failing :: rest).length 0 pre.length
        ++ [⟨uid, oid, .str "error", .str ("Error: " ++ msg)⟩]
    ∧ (order_notification apiKey act times now auth
        (some (.obj [("userId", uid), ("orderId", oid),
          ("orders", .arr (pre ++ failing :: rest))]))).resp.code = 200
    ∧ (order_notification apiKey act times now auth
        (some (.obj [("userId", uid), ("orderId", oid),
          ("orders", .arr (pre ++ failing :: rest))]))).resp.field "status"
      = some (.str "success") := by
  have hacc := order_notification_accepted apiKey act times now auth
    [("userId", uid), ("orderId", oid), ("orders", .arr (pre ++ failing :: rest))]
    hrl hauth (by simp)
  refine ⟨?_, ?_, ?_⟩
  · rw [hacc]
    show (⟨uid, oid, .str "preparing", .str "Order received, starting preparation"⟩
        :: trigger_coffee_machine act (pre ++ failing :: rest) uid oid : List StatusEvent) = _
    rw [trigger_raises act pre rest failing uid oid msg hok hfail]
    simp
  · rw [hacc]
    rfl
  · rw [hacc]
    rfl

theorem C5_error_path_witness :
    ((is_rate_limited [] 0).1 = false
      ∧ checkAuth "k" (some "Bearer k") = .ok
      ∧ boomAct ([] : List Json).length (Json.obj [("name", Json.str "Latte")])
          = .error "boom")
    ∧ (order_notification "k" boomAct [] 0 (some "Bearer k")
        (some (.obj [("userId", Json.str "u"), ("orderId", Json.str "o"),
          ("orders", .arr ([] ++ Json.obj [("name", Json.str "Latte")] :: []))]))).events
      = ⟨Json.str "u", Json.str "o", .str "preparing",
           .str "Order received, starting preparation"⟩
        :: ⟨Json.str "u", Json.str "o", .str "brewing", .str "Coffee machine started"⟩
        :: brewEvents (Json.str "u") (Json.str "o")
             ([] ++ Json.obj [("name", Json.str "Latte")] :: []).length 0
             ([] : List Json).length
        ++ [⟨Json.str "u", Json.str "o", .str "error", .str ("Error: " ++ "boom")⟩] := by
  have h := C5_error_path "k" [] 0 (some "Bearer k") boomAct (Json.str "u") (Json.str "o")
    [] [] (Json.obj [("name", Json.str "Latte")]) "boom"
    (by decide) (by decide) (fun k hk => absurd hk (Nat.not_lt_zero k)) rfl
  exact ⟨⟨by decide, by decide, rfl⟩, h.1⟩
